import Mathlib

/-!
Shallow embedding of the seat-reservation core of the movie-reservation-system
repository (`src/app/api/[[...slugs]]/route.ts`, reservation schema in the
drizzle migration).

Modelling conventions:
* The relational store is a `DB` record holding the `screening` and
  `reservation` tables as lists in insertion order; `db.select().where(eq ...)`
  followed by `res[0]` is `List.find?`, `db.insert` appends, `db.delete` and
  `db.update` with a `where` clause act on every row matching the clause
  (exactly the SQL semantics).
* Seat coordinates arrive through the zod body schema as numbers and are stored
  with `row: String(seat.row)`; every comparison converts back with `Number`,
  so the string/number round trip is the identity and both coordinates are
  modelled as `Nat`.
* `crypto.randomUUID()` is modelled by a freshness counter `nextResId` in the
  state: each insert uses the current counter value as the new reservation id.
  `new Date()` for `createdAt` is an explicit `now` argument.
* The handlers return either an error response (HTTP 400/404 with an error
  string) or a success payload; this is `Except ApiError _`.  An error return
  happens before any write, exactly as in the source control flow.
-/

namespace MRS

/-- A seat as sent in the reserve request body (`z.object({row, number})`). -/
structure Seat where
  row : Nat
  num : Nat
deriving DecidableEq, Repr

/-- A stored taken-seat entry as written by the handlers:
`{ row: String(seat.row), number: seat.number, isAvailable: false }`. -/
structure TakenSeat where
  row : Nat
  num : Nat
  isAvailable : Bool
deriving DecidableEq, Repr

/-- A row of the `screening` table (fields used by the reservation core;
`price` is the `numeric(10,2)` column, modelled as a rational). -/
structure Screening where
  id : String
  movieId : String
  auditoriumId : String
  startTime : Nat
  endTime : Nat
  price : ℚ
  takenSeats : List TakenSeat
deriving DecidableEq, Repr

/-- A row of the `reservation` table.  The primary key `id` is the value of
the freshness counter at insertion time (see module docstring). -/
structure Reservation where
  id : Nat
  userId : String
  screeningId : String
  seats : List TakenSeat
  totalPrice : ℚ
  createdAt : Nat
deriving DecidableEq, Repr

/-- The persistent store: both tables in insertion order plus the freshness
counter backing `crypto.randomUUID()`. -/
structure DB where
  screenings : List Screening
  reservations : List Reservation
  nextResId : Nat
deriving DecidableEq, Repr

/-- Error outcomes of the two handlers: `notFound` is an HTTP 404 with the
given message, `seatConflict row num` is the HTTP 400
`"Seat row {row} number {num} is already taken"` response. -/
inductive ApiError where
  | notFound (msg : String)
  | seatConflict (row num : Nat)
deriving DecidableEq, Repr

/-- `db.select().from(screening).where(eq(screening.id, id)).then(res => res[0])`. -/
def findScreening (s : DB) (screeningId : String) : Option Screening :=
  s.screenings.find? (fun sc => sc.id == screeningId)

/-- The stored form of a requested seat:
`{ row: String(seat.row), number: seat.number, isAvailable: false }`. -/
def storeSeat (seat : Seat) : TakenSeat :=
  ⟨seat.row, seat.num, false⟩

/-- The conflict test of the reserve loop:
`takenSeats.find(s => Number(s.row) === seat.row && Number(s.number) === seat.number)`. -/
def seatTaken (takenSeats : List TakenSeat) (seat : Seat) : Bool :=
  takenSeats.any (fun t => t.row == seat.row && t.num == seat.num)

/-- `db.update(screeningTable).set({ takenSeats }).where(eq(screeningTable.id, screeningId))`:
every screening row matching the id gets the new taken-seat list. -/
def setTakenSeats (s : DB) (screeningId : String) (ts : List TakenSeat) :
    List Screening :=
  s.screenings.map (fun sc =>
    if sc.id = screeningId then { sc with takenSeats := ts } else sc)

/-- `POST /screening/:id/reserve` (route.ts lines 159-213).  On success the
result is the updated store together with the reservation id returned in the
response body. -/
def reserve (s : DB) (screeningId userId : String) (seats : List Seat)
    (now : Nat) : Except ApiError (DB × Nat) :=
  match findScreening s screeningId with
  | none => .error (.notFound "Screening not found")
  | some screening =>
    let takenSeats := screening.takenSeats
    match seats.find? (seatTaken takenSeats) with
    | some seat => .error (.seatConflict seat.row seat.num)
    | none =>
      let updatedTakenSeats := takenSeats ++ seats.map storeSeat
      let res : Reservation :=
        { id := s.nextResId
          userId := userId
          screeningId := screeningId
          seats := seats.map storeSeat
          totalPrice := screening.price
          createdAt := now }
      .ok
        ({ screenings := setTakenSeats s screeningId updatedTakenSeats
           reservations := s.reservations ++ [res]
           nextResId := s.nextResId + 1 },
         res.id)

/-- The reservation lookup of the cancel handler:
`select from reservation where screeningId = ... and userId = ...` then `res[0]`. -/
def findReservation (s : DB) (screeningId userId : String) : Option Reservation :=
  s.reservations.find? (fun r => r.screeningId == screeningId && r.userId == userId)

/-- The seat-release filter of the cancel handler:
`takenSeats.filter(seat => !reservation.seats.find(rSeat => ...))`. -/
def releaseSeats (takenSeats resSeats : List TakenSeat) : List TakenSeat :=
  takenSeats.filter (fun seat =>
    ! resSeats.any (fun rSeat => rSeat.row == seat.row && rSeat.num == seat.num))

/-- `DELETE /screening/:id/cancel` (route.ts lines 234-271). -/
def cancel (s : DB) (screeningId userId : String) : Except ApiError DB :=
  match findReservation s screeningId userId with
  | none => .error (.notFound "Reservation not found")
  | some reservation =>
    let reservations' := s.reservations.filter (fun r => ! (r.id == reservation.id))
    match findScreening s screeningId with
    | none => .ok { s with reservations := reservations' }
    | some screening =>
      let updatedTakenSeats := releaseSeats screening.takenSeats reservation.seats
      .ok
        { s with
          reservations := reservations'
          screenings := setTakenSeats s screeningId updatedTakenSeats }

/-- One API call of the reservation core. -/
inductive Op where
  | reserve (screeningId userId : String) (seats : List Seat) (now : Nat)
  | cancel (screeningId userId : String)
deriving DecidableEq, Repr

/-- Effect of one call on the store; an error response leaves the store
unchanged (the handlers return before any write on every error path). -/
def applyOp (s : DB) : Op → DB
  | .reserve screeningId userId seats now =>
    match reserve s screeningId userId seats now with
    | .ok (s', _) => s'
    | .error _ => s
  | .cancel screeningId userId =>
    match cancel s screeningId userId with
    | .ok s' => s'
    | .error _ => s

/-- Run a sequence of API calls from a given store. -/
def run (ops : List Op) (s : DB) : DB :=
  match ops with
  | [] => s
  | op :: rest => run rest (applyOp s op)

/-- The (row, number) identity of a stored seat; the `isAvailable` flag is
not part of seat identity anywhere in the source. -/
def seatKey (t : TakenSeat) : Nat × Nat :=
  (t.row, t.num)

/-- The set of (row, number) pairs of a stored seat list. -/
def seatSet (l : List TakenSeat) : Finset (Nat × Nat) :=
  (l.map seatKey).toFinset

/-- The reservation rows of one screening, in table order. -/
def resFor (s : DB) (screeningId : String) : List Reservation :=
  s.reservations.filter (fun r => r.screeningId == screeningId)

/-- The union of the seat sets of all active reservations of one screening. -/
def unionSeats (s : DB) (screeningId : String) : Finset (Nat × Nat) :=
  seatSet ((resFor s screeningId).flatMap Reservation.seats)

/-- No drift: every screening's taken-seat set equals the union of the seat
sets of its active reservations. -/
def NoDrift (s : DB) : Prop :=
  ∀ sc ∈ s.screenings, seatSet sc.takenSeats = unionSeats s sc.id

instance : DecidablePred NoDrift := fun s =>
  inferInstanceAs (Decidable (∀ sc ∈ s.screenings, _ = _))

/-- The (row, number) pairs of a requested seat list. -/
def reqSet (seats : List Seat) : Finset (Nat × Nat) :=
  (seats.map (fun st => (st.row, st.num))).toFinset

/-- Two reservation rows of the same screening hold disjoint seat sets. -/
def ResDisj (r₁ r₂ : Reservation) : Prop :=
  r₁.screeningId = r₂.screeningId →
    Disjoint (seatSet r₁.seats) (seatSet r₂.seats)

/-- The inductive invariant: no drift, primary-key uniqueness of both tables,
freshness of the id counter, and per-screening disjointness of reservations. -/
def Inv (s : DB) : Prop :=
  NoDrift s ∧
  (s.screenings.map Screening.id).Nodup ∧
  (s.reservations.map Reservation.id).Nodup ∧
  (∀ r ∈ s.reservations, r.id < s.nextResId) ∧
  s.reservations.Pairwise ResDisj

/-! ### The two phases of the reserve handler

The handler body is not atomic: it `await`s a read of the screening, runs the
conflict check in memory, and only then `await`s the two writes.  Between the
read and the writes another request may commit.  `reserveCheck` is the
read-and-check phase, `reserveWrite` the write phase run with the screening
snapshot obtained by the read; `reserve_phases` below shows that the
sequential handler is exactly the two phases run back to back. -/

/-- The read-and-check phase of the reserve handler (route.ts lines 163-179):
returns the screening snapshot when the screening exists and no requested
seat is in its taken-seat list. -/
def reserveCheck (s : DB) (screeningId : String) (seats : List Seat) :
    Option Screening :=
  match findScreening s screeningId with
  | none => none
  | some screening =>
    match seats.find? (seatTaken screening.takenSeats) with
    | some _ => none
    | none => some screening

/-- The write phase of the reserve handler (route.ts lines 181-211), run with
the screening `snapshot` obtained by the read phase: the taken-seat update is
computed from the snapshot, so a write committed by a concurrent request
between the phases is overwritten. -/
def reserveWrite (s : DB) (screeningId userId : String) (seats : List Seat)
    (snapshot : Screening) (now : Nat) : DB × Nat :=
  let updatedTakenSeats := snapshot.takenSeats ++ seats.map storeSeat
  let res : Reservation :=
    { id := s.nextResId
      userId := userId
      screeningId := screeningId
      seats := seats.map storeSeat
      totalPrice := snapshot.price
      createdAt := now }
  ({ screenings := setTakenSeats s screeningId updatedTakenSeats
     reservations := s.reservations ++ [res]
     nextResId := s.nextResId + 1 },
   res.id)

/-! ### Concrete states used as witnesses -/

/-- A freshly created screening (`POST /admin/screening` sets `takenSeats: []`). -/
def screening1 : Screening :=
  { id := "s1", movieId := "m1", auditoriumId := "a1", startTime := 0
    endTime := 10, price := 5, takenSeats := [] }

/-- A store holding one fresh screening and no reservations. -/
def db0 : DB :=
  { screenings := [screening1], reservations := [], nextResId := 0 }

/-- `screening1` after seat (1,1) was taken. -/
def screening1T : Screening :=
  { screening1 with takenSeats := [⟨1, 1, false⟩] }

/-- The reservation of seat (1,1) on `screening1` by user u1. -/
def res1 : Reservation :=
  { id := 0, userId := "u1", screeningId := "s1", seats := [⟨1, 1, false⟩]
    totalPrice := 5, createdAt := 0 }

/-- The store after u1 reserved seat (1,1) on the fresh screening. -/
def db1 : DB :=
  { screenings := [screening1T], reservations := [res1], nextResId := 1 }

/-- The store after u1 additionally reserved seat (3,3) on `db1`: the same
user now holds two active reservations for the same screening. -/
def db2 : DB :=
  { screenings := [{ screening1 with
      takenSeats := [⟨1, 1, false⟩, ⟨3, 3, false⟩] }]
    reservations := [res1, ⟨1, "u1", "s1", [⟨3, 3, false⟩], 5, 9⟩]
    nextResId := 2 }

/-- The store after u1 reserved seat (1,2) on the fresh screening. -/
def dbR : DB :=
  { screenings := [{ screening1 with takenSeats := [⟨1, 2, false⟩] }]
    reservations := [⟨0, "u1", "s1", [⟨1, 2, false⟩], 5, 0⟩]
    nextResId := 1 }

/-! ### Basic lemmas about seat sets and lookups -/

@[simp]
theorem seatKey_storeSeat (seat : Seat) :
    seatKey (storeSeat seat) = (seat.row, seat.num) := rfl

theorem mem_seatSet {l : List TakenSeat} {a : Nat × Nat} :
    a ∈ seatSet l ↔ ∃ t ∈ l, seatKey t = a := by
  simp [seatSet, List.mem_toFinset, List.mem_map]

theorem seatSet_append (l₁ l₂ : List TakenSeat) :
    seatSet (l₁ ++ l₂) = seatSet l₁ ∪ seatSet l₂ := by
  simp [seatSet, List.map_append, List.toFinset_append]

theorem seatSet_map_storeSeat (seats : List Seat) :
    seatSet (seats.map storeSeat) = reqSet seats := by
  simp [seatSet, reqSet, List.map_map]
  rfl

theorem seatTaken_iff {l : List TakenSeat} {seat : Seat} :
    seatTaken l seat = true ↔ (seat.row, seat.num) ∈ seatSet l := by
  simp [seatTaken, List.any_eq_true, mem_seatSet, seatKey, Prod.ext_iff]

theorem mem_releaseSeats {taken rs : List TakenSeat} {t : TakenSeat} :
    t ∈ releaseSeats taken rs ↔ t ∈ taken ∧ seatKey t ∉ seatSet rs := by
  simp [releaseSeats, List.mem_filter, List.any_eq_true, mem_seatSet, seatKey,
    Prod.ext_iff]

theorem seatSet_releaseSeats (taken rs : List TakenSeat) :
    seatSet (releaseSeats taken rs) = seatSet taken \ seatSet rs := by
  ext a
  constructor
  · intro h
    rcases mem_seatSet.1 h with ⟨t, ht, rfl⟩
    rcases mem_releaseSeats.1 ht with ⟨h₁, h₂⟩
    exact Finset.mem_sdiff.2 ⟨mem_seatSet.2 ⟨t, h₁, rfl⟩, h₂⟩
  · intro h
    rcases Finset.mem_sdiff.1 h with ⟨h₁, h₂⟩
    rcases mem_seatSet.1 h₁ with ⟨t, ht, rfl⟩
    exact mem_seatSet.2 ⟨t, mem_releaseSeats.2 ⟨ht, h₂⟩, rfl⟩

theorem findScreening_some {s : DB} {i : String} {sc : Screening}
    (h : findScreening s i = some sc) : sc ∈ s.screenings ∧ sc.id = i := by
  refine ⟨List.mem_of_find?_eq_some h, ?_⟩
  have := List.find?_some h
  simpa using this

theorem findScreening_none {s : DB} {i : String} :
    findScreening s i = none ↔ ∀ sc ∈ s.screenings, sc.id ≠ i := by
  simp [findScreening, List.find?_eq_none]

theorem findReservation_some {s : DB} {i u : String} {r : Reservation}
    (h : findReservation s i u = some r) :
    r ∈ s.reservations ∧ r.screeningId = i ∧ r.userId = u := by
  refine ⟨List.mem_of_find?_eq_some h, ?_⟩
  have := List.find?_some h
  simpa using this

theorem mem_unionSeats {s : DB} {i : String} {a : Nat × Nat} :
    a ∈ unionSeats s i ↔
      ∃ r ∈ s.reservations, r.screeningId = i ∧ a ∈ seatSet r.seats := by
  simp only [unionSeats, resFor, mem_seatSet, List.mem_flatMap, List.mem_filter,
    beq_iff_eq]
  constructor
  · rintro ⟨t, ⟨r, ⟨hr, hi⟩, hts⟩, rfl⟩
    exact ⟨r, hr, hi, t, hts, rfl⟩
  · rintro ⟨r, hr, hi, t, hts, rfl⟩
    exact ⟨t, ⟨r, ⟨hr, hi⟩, hts⟩, rfl⟩

theorem map_id_setTakenSeats (s : DB) (i : String) (ts : List TakenSeat) :
    (setTakenSeats s i ts).map Screening.id = s.screenings.map Screening.id := by
  simp only [setTakenSeats, List.map_map]
  refine List.map_congr_left (fun sc _ => ?_)
  by_cases h : sc.id = i <;> simp [h]

theorem mem_setTakenSeats {s : DB} {i : String} {ts : List TakenSeat}
    {sc' : Screening} :
    sc' ∈ setTakenSeats s i ts ↔
      ∃ sc ∈ s.screenings,
        sc' = if sc.id = i then { sc with takenSeats := ts } else sc := by
  simp only [setTakenSeats, List.mem_map]
  constructor
  · rintro ⟨sc, h, rfl⟩; exact ⟨sc, h, rfl⟩
  · rintro ⟨sc, h, rfl⟩; exact ⟨sc, h, rfl⟩

/-! ### Shapes of the success paths -/

theorem reserve_ok_elim {s s' : DB} {i u : String} {seats : List Seat}
    {now rid : Nat} (hok : reserve s i u seats now = .ok (s', rid)) :
    ∃ sc, findScreening s i = some sc ∧
      seats.find? (seatTaken sc.takenSeats) = none ∧
      s' = { screenings := setTakenSeats s i (sc.takenSeats ++ seats.map storeSeat)
             reservations := s.reservations ++
               [⟨s.nextResId, u, i, seats.map storeSeat, sc.price, now⟩]
             nextResId := s.nextResId + 1 } ∧
      rid = s.nextResId := by
  unfold reserve at hok
  cases hfs : findScreening s i with
  | none => rw [hfs] at hok; exact absurd hok (by simp)
  | some sc =>
    rw [hfs] at hok
    dsimp only at hok
    cases hconf : seats.find? (seatTaken sc.takenSeats) with
    | some st => rw [hconf] at hok; exact absurd hok (by simp)
    | none =>
      rw [hconf] at hok
      simp only [Except.ok.injEq, Prod.mk.injEq] at hok
      exact ⟨sc, rfl, hconf, hok.1.symm, hok.2.symm⟩

theorem cancel_ok_elim {s s' : DB} {i u : String}
    (hok : cancel s i u = .ok s') :
    ∃ r, findReservation s i u = some r ∧
      ((findScreening s i = none ∧
        s' = { s with
               reservations := s.reservations.filter (fun x => ! (x.id == r.id)) }) ∨
       (∃ sc, findScreening s i = some sc ∧
        s' = { s with
               reservations := s.reservations.filter (fun x => ! (x.id == r.id))
               screenings :=
                 setTakenSeats s i (releaseSeats sc.takenSeats r.seats) })) := by
  unfold cancel at hok
  cases hfr : findReservation s i u with
  | none => rw [hfr] at hok; exact absurd hok (by simp)
  | some r =>
    rw [hfr] at hok
    dsimp only at hok
    cases hfs : findScreening s i with
    | none =>
      rw [hfs] at hok
      simp only [Except.ok.injEq] at hok
      exact ⟨r, rfl, Or.inl ⟨rfl, hok.symm⟩⟩
    | some sc =>
      rw [hfs] at hok
      simp only [Except.ok.injEq] at hok
      exact ⟨r, rfl, Or.inr ⟨sc, rfl, hok.symm⟩⟩

theorem mem_res_filter {res : List Reservation} {rid : Nat} {x : Reservation} :
    x ∈ res.filter (fun y => ! (y.id == rid)) ↔ x ∈ res ∧ x.id ≠ rid := by
  simp [List.mem_filter]

/-! ### Preservation of the inductive invariant -/

theorem resDisj_symmetric : Symmetric ResDisj :=
  fun _ _ h hi => (h hi.symm).symm

theorem inv_reserve_ok {s s' : DB} {i u : String} {seats : List Seat}
    {now rid : Nat} (hInv : Inv s)
    (hok : reserve s i u seats now = .ok (s', rid)) : Inv s' := by
  obtain ⟨hND, hSN, hRN, hBd, hPW⟩ := hInv
  obtain ⟨sc, hfs, hconf, rfl, rfl⟩ := reserve_ok_elim hok
  obtain ⟨hscMem, hscId⟩ := findScreening_some hfs
  have hfree : ∀ st ∈ seats, (st.row, st.num) ∉ seatSet sc.takenSeats := by
    intro st hst
    have h := List.find?_eq_none.1 hconf st hst
    simpa [seatTaken_iff] using h
  have hU : seatSet sc.takenSeats = unionSeats s i := by
    rw [← hscId]; exact hND sc hscMem
  refine ⟨?_, ?_, ?_, ?_, ?_⟩
  · -- no drift
    intro sc' hsc'
    rcases mem_setTakenSeats.1 hsc' with ⟨sc₁, hsc₁, rfl⟩
    by_cases hid : sc₁.id = i
    · have heq : sc = sc₁ :=
        List.inj_on_of_nodup_map hSN hscMem hsc₁ (by rw [hscId, hid])
      subst heq
      rw [if_pos hid]
      apply Finset.ext
      intro a
      rw [seatSet_append]
      constructor
      · intro ha
        rcases Finset.mem_union.1 ha with ha | ha
        · rw [hU] at ha
          rcases mem_unionSeats.1 ha with ⟨r, hr, hri, hra⟩
          exact mem_unionSeats.2 ⟨r, List.mem_append_left _ hr,
            hri.trans hid.symm, hra⟩
        · refine mem_unionSeats.2
            ⟨⟨s.nextResId, u, i, seats.map storeSeat, sc.price, now⟩,
             List.mem_append_right _ (List.mem_singleton_self _), hid.symm, ha⟩
      · intro ha
        rcases mem_unionSeats.1 ha with ⟨r, hr, hri, hra⟩
        rcases List.mem_append.1 hr with hr | hr
        · apply Finset.mem_union_left
          rw [hU]
          exact mem_unionSeats.2 ⟨r, hr, hri.trans hid, hra⟩
        · rw [List.mem_singleton.1 hr] at hra
          exact Finset.mem_union_right _ hra
    · rw [if_neg hid]
      rw [hND sc₁ hsc₁]
      apply Finset.ext
      intro a
      constructor
      · intro ha
        rcases mem_unionSeats.1 ha with ⟨r, hr, hri, hra⟩
        exact mem_unionSeats.2 ⟨r, List.mem_append_left _ hr, hri, hra⟩
      · intro ha
        rcases mem_unionSeats.1 ha with ⟨r, hr, hri, hra⟩
        rcases List.mem_append.1 hr with hr | hr
        · exact mem_unionSeats.2 ⟨r, hr, hri, hra⟩
        · rw [List.mem_singleton.1 hr] at hri
          exact absurd hri.symm hid
  · -- screening ids stay Nodup
    rw [map_id_setTakenSeats]
    exact hSN
  · -- reservation ids stay Nodup
    rw [List.map_append]
    refine List.nodup_append.2 ⟨hRN, List.nodup_singleton _, ?_⟩
    intro x hx hx'
    rcases List.mem_map.1 hx with ⟨r, hr, rfl⟩
    simp only [List.map_cons, List.map_nil, List.mem_singleton] at hx'
    exact absurd hx' (Nat.ne_of_lt (hBd r hr))
  · -- id bound
    intro r hr
    rcases List.mem_append.1 hr with hr | hr
    · exact Nat.lt_trans (hBd r hr) (Nat.lt_succ_self _)
    · rw [List.mem_singleton.1 hr]
      exact Nat.lt_succ_self _
  · -- pairwise disjoint per screening
    refine List.pairwise_append.2 ⟨hPW, List.pairwise_singleton _ _, ?_⟩
    intro r hr r' hr'
    rw [List.mem_singleton.1 hr']
    intro hscr
    rw [Finset.disjoint_left]
    intro a ha hain
    rcases mem_seatSet.1 hain with ⟨t, ht, rfl⟩
    rcases List.mem_map.1 ht with ⟨st, hst, rfl⟩
    have h1 : seatKey (storeSeat st) ∈ seatSet sc.takenSeats := by
      rw [hU]
      exact mem_unionSeats.2 ⟨r, hr, hscr, ha⟩
    exact hfree st hst h1

theorem inv_cancel_ok {s s' : DB} {i u : String} (hInv : Inv s)
    (hok : cancel s i u = .ok s') : Inv s' := by
  obtain ⟨hND, hSN, hRN, hBd, hPW⟩ := hInv
  obtain ⟨r, hfr, hcase⟩ := cancel_ok_elim hok
  obtain ⟨hrMem, hrScr, hrUsr⟩ := findReservation_some hfr
  have hmemF : ∀ x, x ∈ s.reservations.filter (fun y => ! (y.id == r.id)) ↔
      x ∈ s.reservations ∧ x ≠ r := by
    intro x
    rw [mem_res_filter]
    constructor
    · rintro ⟨hx, hne⟩
      exact ⟨hx, fun h => hne (by rw [h])⟩
    · rintro ⟨hx, hne⟩
      exact ⟨hx, fun h => hne (List.inj_on_of_nodup_map hRN hx hrMem h)⟩
  have hUF : ∀ s₂ : DB,
      s₂.reservations = s.reservations.filter (fun y => ! (y.id == r.id)) →
      ∀ j, j ≠ i → ∀ a, (a ∈ unionSeats s₂ j ↔ a ∈ unionSeats s j) := by
    intro s₂ h₂ j hj a
    rw [mem_unionSeats, mem_unionSeats, h₂]
    constructor
    · rintro ⟨x, hx, hxj, hxa⟩
      exact ⟨x, ((hmemF x).1 hx).1, hxj, hxa⟩
    · rintro ⟨x, hx, hxj, hxa⟩
      refine ⟨x, (hmemF x).2 ⟨hx, ?_⟩, hxj, hxa⟩
      rintro rfl
      exact hj (by rw [← hrScr, hxj])
  have hUi : ∀ s₂ : DB,
      s₂.reservations = s.reservations.filter (fun y => ! (y.id == r.id)) →
      ∀ a, (a ∈ unionSeats s₂ i ↔ a ∈ unionSeats s i ∧ a ∉ seatSet r.seats) := by
    intro s₂ h₂ a
    rw [mem_unionSeats, h₂]
    constructor
    · rintro ⟨x, hx, hxi, hxa⟩
      rcases (hmemF x).1 hx with ⟨hxm, hxr⟩
      refine ⟨mem_unionSeats.2 ⟨x, hxm, hxi, hxa⟩, ?_⟩
      intro har
      have hd : ResDisj x r :=
        List.Pairwise.forall resDisj_symmetric hPW hxm hrMem hxr
      exact Finset.disjoint_left.1 (hd (hxi.trans hrScr.symm)) hxa har
    · rintro ⟨hau, har⟩
      rcases mem_unionSeats.1 hau with ⟨x, hxm, hxi, hxa⟩
      refine ⟨x, (hmemF x).2 ⟨hxm, ?_⟩, hxi, hxa⟩
      rintro rfl
      exact har hxa
  have hFsub :
      (s.reservations.filter (fun y => ! (y.id == r.id))).Sublist
        s.reservations := List.filter_sublist _
  rcases hcase with ⟨hfsN, rfl⟩ | ⟨sc, hfs, rfl⟩
  · refine ⟨?_, hSN, ?_, ?_, ?_⟩
    · intro sc hsc
      have hne : sc.id ≠ i := findScreening_none.1 hfsN sc hsc
      rw [hND sc hsc]
      apply Finset.ext
      intro a
      exact (hUF _ rfl sc.id hne a).symm
    · exact ((hFsub.map Reservation.id).nodup hRN)
    · intro x hx
      exact hBd x ((hmemF x).1 hx).1
    · exact hPW.filter _
  · obtain ⟨hscMem, hscId⟩ := findScreening_some hfs
    refine ⟨?_, ?_, ?_, ?_, ?_⟩
    · intro sc' hsc'
      rcases mem_setTakenSeats.1 hsc' with ⟨sc₁, hsc₁, rfl⟩
      by_cases hid : sc₁.id = i
      · have heq : sc = sc₁ :=
          List.inj_on_of_nodup_map hSN hscMem hsc₁ (by rw [hscId, hid])
        subst heq
        rw [if_pos hid]
        rw [seatSet_releaseSeats]
        apply Finset.ext
        intro a
        rw [Finset.mem_sdiff]
        have hU : seatSet sc.takenSeats = unionSeats s i := by
          rw [← hscId]; exact hND sc hscMem
        rw [hU]
        show _ ↔ a ∈ unionSeats _ sc.id
        rw [hid]
        exact (hUi _ rfl a).symm
      · rw [if_neg hid]
        rw [hND sc₁ hsc₁]
        apply Finset.ext
        intro a
        exact (hUF _ rfl sc₁.id hid a).symm
    · rw [map_id_setTakenSeats]
      exact hSN
    · exact ((hFsub.map Reservation.id).nodup hRN)
    · intro x hx
      exact hBd x ((hmemF x).1 hx).1
    · exact hPW.filter _

theorem inv_applyOp {s : DB} (h : Inv s) (op : Op) : Inv (applyOp s op) := by
  cases op with
  | reserve i u seats now =>
    simp only [applyOp]
    cases hr : reserve s i u seats now with
    | ok p =>
      obtain ⟨s', rid⟩ := p
      exact inv_reserve_ok h hr
    | error e => exact h
  | cancel i u =>
    simp only [applyOp]
    cases hc : cancel s i u with
    | ok s' => exact inv_cancel_ok h hc
    | error e => exact h

theorem inv_run {s : DB} (ops : List Op) (h : Inv s) : Inv (run ops s) := by
  induction ops generalizing s with
  | nil => exact h
  | cons op rest ih => exact ih (inv_applyOp h op)

/-! ### Auxiliary computation lemmas -/

theorem find?_setTakenSeats (s : DB) (i : String) (ts : List TakenSeat)
    (j : String) :
    (setTakenSeats s i ts).find? (fun sc => sc.id == j) =
      Option.map
        (fun sc => if sc.id = i then { sc with takenSeats := ts } else sc)
        (s.screenings.find? (fun sc => sc.id == j)) := by
  unfold setTakenSeats
  have hp : ((fun sc : Screening => sc.id == j) ∘ fun sc =>
      if sc.id = i then { sc with takenSeats := ts } else sc) =
      (fun sc : Screening => sc.id == j) := by
    funext sc
    by_cases h : sc.id = i <;> simp [h, Function.comp]
  rw [List.find?_map, hp]

theorem releaseSeats_append_self {taken : List TakenSeat} {seats : List Seat}
    (hfree : seats.find? (seatTaken taken) = none) :
    releaseSeats (taken ++ seats.map storeSeat) (seats.map storeSeat) = taken := by
  have hnc : ∀ st ∈ seats, ¬ seatTaken taken st = true :=
    List.find?_eq_none.1 hfree
  unfold releaseSeats
  rw [List.filter_append]
  have h₁ : taken.filter
      (fun seat => ! (seats.map storeSeat).any
        (fun rSeat => rSeat.row == seat.row && rSeat.num == seat.num)) = taken := by
    apply List.filter_eq_self.2
    intro t ht
    simp only [Bool.not_eq_true', List.any_eq_false]
    intro rs hrs
    rcases List.mem_map.1 hrs with ⟨st, hst, rfl⟩
    simp only [storeSeat, Bool.and_eq_true, beq_iff_eq, not_and]
    intro hrow hnum
    apply hnc st hst
    rw [seatTaken_iff]
    exact mem_seatSet.2 ⟨t, ht, by simp [seatKey, hrow, hnum]⟩
  have h₂ : (seats.map storeSeat).filter
      (fun seat => ! (seats.map storeSeat).any
        (fun rSeat => rSeat.row == seat.row && rSeat.num == seat.num)) = [] := by
    apply List.filter_eq_nil_iff.2
    intro t ht
    simp only [Bool.not_eq_true', Bool.not_eq_false]
    exact List.any_eq_true.2 ⟨t, ht, by simp⟩
  rw [h₁, h₂, List.append_nil]

/-- The sequential handler is exactly the read-and-check phase followed by
the write phase run on the snapshot the check returned. -/
theorem reserve_phases {s : DB} {i u : String} {seats : List Seat} {now : Nat}
    {sc : Screening} (h : reserveCheck s i seats = some sc) :
    findScreening s i = some sc ∧
    seats.find? (seatTaken sc.takenSeats) = none ∧
    reserve s i u seats now = .ok (reserveWrite s i u seats sc now) := by
  unfold reserveCheck at h
  cases hfs : findScreening s i with
  | none => rw [hfs] at h; exact absurd h (by simp)
  | some sc' =>
    rw [hfs] at h
    dsimp only at h
    cases hconf : seats.find? (seatTaken sc'.takenSeats) with
    | some st => rw [hconf] at h; exact absurd h (by simp)
    | none =>
      rw [hconf] at h
      simp only [Option.some.injEq] at h
      subst h
      refine ⟨rfl, hconf, ?_⟩
      unfold reserve reserveWrite
      rw [hfs]
      dsimp only
      rw [hconf]

theorem findScreening_eq_of_set {s₁ s : DB} {i : String} {ts : List TakenSeat}
    (h : s₁.screenings = setTakenSeats s i ts) (j : String) :
    findScreening s₁ j =
      Option.map
        (fun sc => if sc.id = i then { sc with takenSeats := ts } else sc)
        (findScreening s j) := by
  unfold findScreening
  rw [h]
  exact find?_setTakenSeats s i ts j

/-! ### The claims -/

/-- Claim C1: starting from a state whose screenings' taken-seat sets equal
the unions of the seats of their active reservations because there are no
reservations yet (a store of freshly created screenings), any sequence of
Reserve and Cancel calls leaves every screening's taken-seat set equal to the
union of the seat lists of its currently active reservations — no drift.
Distinctness of screening ids is the primary key of the `screening` table. -/
theorem claim_C1_no_drift (ops : List Op) (s₀ : DB)
    (hres : s₀.reservations = [])
    (hdrift : NoDrift s₀)
    (hids : (s₀.screenings.map Screening.id).Nodup) :
    NoDrift (run ops s₀) := by
  have hInv : Inv s₀ := by
    refine ⟨hdrift, hids, ?_, ?_, ?_⟩ <;> simp [hres]
  exact (inv_run ops hInv).1

/-- Witness for C1 at a concrete store and call sequence. -/
theorem claim_C1_no_drift_witness :
    db0.reservations = [] ∧ NoDrift db0 ∧
    NoDrift (run
      [Op.reserve "s1" "u1" [⟨1, 2⟩, ⟨1, 3⟩] 0,
       Op.reserve "s1" "u2" [⟨1, 2⟩] 1,
       Op.cancel "s1" "u1"] db0) :=
  ⟨rfl, by decide,
   claim_C1_no_drift _ db0 rfl (by decide) (by decide)⟩

/-- Claim C3: if the screening exists and at least one requested seat is
already in its taken-seat list, the reserve call returns the SeatConflict
error carrying the row and number of the first conflicting requested seat
(`find?` returns the first list element satisfying the check), and the store
is left unchanged. -/
theorem claim_C3_seat_conflict {s : DB} {i u : String} {seats : List Seat}
    {now : Nat} {sc : Screening}
    (hfs : findScreening s i = some sc)
    (hconf : ∃ st ∈ seats, (st.row, st.num) ∈ seatSet sc.takenSeats) :
    ∃ c, seats.find? (seatTaken sc.takenSeats) = some c ∧
      reserve s i u seats now = .error (.seatConflict c.row c.num) ∧
      applyOp s (.reserve i u seats now) = s := by
  have hsome : (seats.find? (seatTaken sc.takenSeats)).isSome = true :=
    List.find?_isSome.2 (by
      rcases hconf with ⟨st, hst, hmem⟩
      exact ⟨st, hst, seatTaken_iff.2 hmem⟩)
  rcases Option.isSome_iff_exists.1 hsome with ⟨c, hc⟩
  have hr : reserve s i u seats now = .error (.seatConflict c.row c.num) := by
    unfold reserve
    rw [hfs]
    dsimp only
    rw [hc]
  exact ⟨c, hc, hr, by simp [applyOp, hr]⟩

/-- Witness for C3: user u2 requests the taken seat (1,1). -/
theorem claim_C3_seat_conflict_witness :
    ∃ c, List.find? (seatTaken screening1T.takenSeats) [(⟨1, 1⟩ : Seat)] = some c ∧
      reserve db1 "s1" "u2" [⟨1, 1⟩] 5 = .error (.seatConflict c.row c.num) ∧
      applyOp db1 (.reserve "s1" "u2" [⟨1, 1⟩] 5) = db1 :=
  claim_C3_seat_conflict (by decide) (by decide)

/-- Claim C4: a reserve call on an existing screening with no seat conflict
succeeds; the screening's taken-seat list becomes the old list with the
requested seats appended marked unavailable, a reservation owning exactly the
requested seats is inserted with `totalPrice` equal to the screening's flat
price (independent of the seat count), and the returned value is the new
reservation's identifier. -/
theorem claim_C4_reserve_effect {s : DB} {i u : String} {seats : List Seat}
    {now : Nat} {sc : Screening}
    (hfs : findScreening s i = some sc)
    (hconf : seats.find? (seatTaken sc.takenSeats) = none) :
    ∃ s', reserve s i u seats now = .ok (s', s.nextResId) ∧
      (findScreening s' i).map Screening.takenSeats =
        some (sc.takenSeats ++ seats.map storeSeat) ∧
      s'.reservations = s.reservations ++
        [{ id := s.nextResId, userId := u, screeningId := i,
           seats := seats.map storeSeat, totalPrice := sc.price,
           createdAt := now }] := by
  have hr : reserve s i u seats now = .ok
      ({ screenings := setTakenSeats s i (sc.takenSeats ++ seats.map storeSeat)
         reservations := s.reservations ++
           [⟨s.nextResId, u, i, seats.map storeSeat, sc.price, now⟩]
         nextResId := s.nextResId + 1 }, s.nextResId) := by
    unfold reserve
    rw [hfs]
    dsimp only
    rw [hconf]
  refine ⟨_, hr, ?_, rfl⟩
  rw [findScreening_eq_of_set rfl]
  rw [hfs]
  simp [(findScreening_some hfs).2]

/-- Witness for C4: user u2 reserves the free seat (2,5). -/
theorem claim_C4_reserve_effect_witness :
    ∃ s', reserve db1 "s1" "u2" [⟨2, 5⟩] 7 = .ok (s', db1.nextResId) ∧
      (findScreening s' "s1").map Screening.takenSeats =
        some (screening1T.takenSeats ++ [(⟨2, 5⟩ : Seat)].map storeSeat) ∧
      s'.reservations = db1.reservations ++
        [{ id := db1.nextResId, userId := "u2", screeningId := "s1",
           seats := [(⟨2, 5⟩ : Seat)].map storeSeat,
           totalPrice := screening1T.price, createdAt := 7 }] :=
  claim_C4_reserve_effect (by decide) (by decide)

/-- Claim C7: a cancel call for a (user, screening) pair with no reservation
returns the NotFound error and leaves the store unchanged. -/
theorem claim_C7_cancel_not_found {s : DB} {i u : String}
    (hfr : findReservation s i u = none) :
    cancel s i u = .error (.notFound "Reservation not found") ∧
    applyOp s (.cancel i u) = s := by
  have hc : cancel s i u = .error (.notFound "Reservation not found") := by
    unfold cancel
    rw [hfr]
  exact ⟨hc, by simp [applyOp, hc]⟩

/-- Witness for C7 on the store with no reservations. -/
theorem claim_C7_cancel_not_found_witness :
    cancel db0 "s1" "u1" = .error (.notFound "Reservation not found") ∧
    applyOp db0 (.cancel "s1" "u1") = db0 :=
  claim_C7_cancel_not_found (by decide)

/-- Claim C9: a reserve call with an empty seat list on an existing screening
is accepted: the conflict loop is vacuous, the screening row is unchanged,
and a reservation holding zero seats is inserted with `totalPrice` equal to
the screening's full flat price; the new reservation's id is returned. -/
theorem claim_C9_empty_seats {s : DB} {i u : String} {now : Nat}
    {sc : Screening} (hfs : findScreening s i = some sc) :
    ∃ s', reserve s i u [] now = .ok (s', s.nextResId) ∧
      findScreening s' i = some sc ∧
      s'.reservations = s.reservations ++
        [{ id := s.nextResId, userId := u, screeningId := i, seats := [],
           totalPrice := sc.price, createdAt := now }] := by
  have hr : reserve s i u [] now = .ok
      ({ screenings := setTakenSeats s i (sc.takenSeats ++ ([] : List Seat).map storeSeat)
         reservations := s.reservations ++
           [⟨s.nextResId, u, i, ([] : List Seat).map storeSeat, sc.price, now⟩]
         nextResId := s.nextResId + 1 }, s.nextResId) := by
    unfold reserve
    rw [hfs]
    rfl
  refine ⟨_, hr, ?_, rfl⟩
  rw [findScreening_eq_of_set rfl, hfs, Option.map_some',
    if_pos (findScreening_some hfs).2]
  simp

/-- Witness for C9: an empty reservation on the fresh store. -/
theorem claim_C9_empty_seats_witness :
    ∃ s', reserve db0 "s1" "u3" [] 2 = .ok (s', db0.nextResId) ∧
      findScreening s' "s1" = some screening1 ∧
      s'.reservations = db0.reservations ++
        [{ id := db0.nextResId, userId := "u3", screeningId := "s1",
           seats := [], totalPrice := screening1.price, createdAt := 2 }] :=
  claim_C9_empty_seats (by decide)

/-- Claim C5: a cancel call that finds a reservation (the first row for this
user and screening, the only one under the intended schema) and the screening
deletes that reservation and filters out of the screening's taken-seat list
exactly the seats equal to one of the reservation's seats under (row, number)
equality; every other taken seat remains. -/
theorem claim_C5_cancel_effect {s : DB} {i u : String} {r : Reservation}
    {sc : Screening}
    (hfr : findReservation s i u = some r)
    (hfs : findScreening s i = some sc) :
    ∃ s', cancel s i u = .ok s' ∧
      s'.reservations = s.reservations.filter (fun x => ! (x.id == r.id)) ∧
      r ∉ s'.reservations ∧
      (findScreening s' i).map Screening.takenSeats =
        some (releaseSeats sc.takenSeats r.seats) ∧
      ∀ t, t ∈ releaseSeats sc.takenSeats r.seats ↔
        t ∈ sc.takenSeats ∧ seatKey t ∉ seatSet r.seats := by
  have hc : cancel s i u = .ok
      { s with
        reservations := s.reservations.filter (fun x => ! (x.id == r.id))
        screenings := setTakenSeats s i (releaseSeats sc.takenSeats r.seats) } := by
    unfold cancel
    rw [hfr]
    dsimp only
    rw [hfs]
  refine ⟨_, hc, rfl, ?_, ?_, fun t => mem_releaseSeats⟩
  · intro hmem
    exact (mem_res_filter.1 hmem).2 rfl
  · rw [findScreening_eq_of_set rfl, hfs, Option.map_some',
      if_pos (findScreening_some hfs).2]
    rfl

/-- Witness for C5: cancelling u1's reservation of seat (1,1). -/
theorem claim_C5_cancel_effect_witness :
    ∃ s', cancel db1 "s1" "u1" = .ok s' ∧
      s'.reservations = db1.reservations.filter (fun x => ! (x.id == res1.id)) ∧
      res1 ∉ s'.reservations ∧
      (findScreening s' "s1").map Screening.takenSeats =
        some (releaseSeats screening1T.takenSeats res1.seats) ∧
      ∀ t, t ∈ releaseSeats screening1T.takenSeats res1.seats ↔
        t ∈ screening1T.takenSeats ∧ seatKey t ∉ seatSet res1.seats :=
  claim_C5_cancel_effect (by decide) (by decide)

/-- Claim C6: a successful reserve followed immediately by a cancel that
targets that same reservation — which by the cancel lookup means the user had
no earlier reservation row for this screening — restores the screening's row
(in particular its taken-seat list) to exactly its pre-reserve value. -/
theorem claim_C6_round_trip {s s₁ : DB} {i u : String} {seats : List Seat}
    {now rid : Nat}
    (hok : reserve s i u seats now = .ok (s₁, rid))
    (hnone : findReservation s i u = none) :
    ∃ s₂, cancel s₁ i u = .ok s₂ ∧
      findScreening s₂ i = findScreening s i := by
  obtain ⟨sc, hfs, hconf, hs₁, hrid⟩ := reserve_ok_elim hok
  have hscId := (findScreening_some hfs).2
  have h1 : s₁.screenings =
      setTakenSeats s i (sc.takenSeats ++ seats.map storeSeat) := by
    rw [hs₁]
  have h2 : s₁.reservations = s.reservations ++
      [⟨s.nextResId, u, i, seats.map storeSeat, sc.price, now⟩] := by
    rw [hs₁]
  have hfr : findReservation s₁ i u =
      some ⟨s.nextResId, u, i, seats.map storeSeat, sc.price, now⟩ := by
    unfold findReservation at hnone ⊢
    rw [h2, List.find?_append, hnone]
    simp
  have hfs₁ : findScreening s₁ i =
      some { sc with takenSeats := sc.takenSeats ++ seats.map storeSeat } := by
    rw [findScreening_eq_of_set h1, hfs, Option.map_some', if_pos hscId]
  have hc : cancel s₁ i u = .ok
      { s₁ with
        reservations := s₁.reservations.filter
          (fun x => ! (x.id == s.nextResId))
        screenings := setTakenSeats s₁ i
          (releaseSeats (sc.takenSeats ++ seats.map storeSeat)
            (seats.map storeSeat)) } := by
    unfold cancel
    rw [hfr]
    dsimp only
    rw [hfs₁]
  refine ⟨_, hc, ?_⟩
  rw [findScreening_eq_of_set rfl, hfs₁, Option.map_some',
    if_pos (show ({ sc with
      takenSeats := sc.takenSeats ++ seats.map storeSeat } : Screening).id = i
      from hscId),
    releaseSeats_append_self hconf]
  exact hfs.symm

/-- Witness for C6: reserve seat (1,2) on the fresh store, then cancel. -/
theorem claim_C6_round_trip_witness :
    reserve db0 "s1" "u1" [⟨1, 2⟩] 0 = .ok (dbR, 0) ∧
    ∃ s₂, cancel dbR "s1" "u1" = .ok s₂ ∧
      findScreening s₂ "s1" = findScreening db0 "s1" :=
  ⟨by rfl,
   @claim_C6_round_trip db0 dbR "s1" "u1" [⟨1, 2⟩] 0 0 (by rfl) (by decide)⟩

/-- Claim C8 is refuted: from the fresh store, two reserve calls by the same
user on the same screening for different free seats both succeed, so the
store ends with two simultaneously active reservations for the
(user, screening) pair — the operations enforce no per-pair uniqueness. -/
theorem claim_C8_counterexample :
    1 < ((run [Op.reserve "s1" "u1" [⟨1, 1⟩] 0,
               Op.reserve "s1" "u1" [⟨1, 2⟩] 1] db0).reservations.filter
          (fun x => x.screeningId == "s1" && x.userId == "u1")).length := by
  decide

/-- Claim C8 as amended: the schema's only uniqueness constraint on the
reservation table is its primary key and the reserve handler never consults
the caller's existing reservations, so every successful reserve increases the
number of active reservations of the (user, screening) pair by one — the pair
count is unbounded rather than at most one. -/
theorem claim_C8_amended_pair_growth {s s' : DB} {i u : String}
    {seats : List Seat} {now rid : Nat}
    (hok : reserve s i u seats now = .ok (s', rid)) :
    (s'.reservations.filter
      (fun x => x.screeningId == i && x.userId == u)).length =
    (s.reservations.filter
      (fun x => x.screeningId == i && x.userId == u)).length + 1 := by
  obtain ⟨sc, hfs, hconf, rfl, hrid⟩ := reserve_ok_elim hok
  simp [List.filter_append]

/-- Witness for the amended C8: the second reserve by u1 raises the pair
count from one to two. -/
theorem claim_C8_amended_pair_growth_witness :
    reserve db1 "s1" "u1" [⟨3, 3⟩] 9 = .ok (db2, 1) ∧
    (db2.reservations.filter
      (fun x => x.screeningId == "s1" && x.userId == "u1")).length =
    (db1.reservations.filter
      (fun x => x.screeningId == "s1" && x.userId == "u1")).length + 1 :=
  ⟨by rfl,
   @claim_C8_amended_pair_growth db1 db2 "s1" "u1" [⟨3, 3⟩] 9 1 (by rfl)⟩

/-- Claim C10: the conflict loop checks requested seats only against the
screening's stored taken-seat list, never against each other: the request
[(1,2), (1,2)] on a screening where (1,2) is free succeeds, the pair is
appended twice to the taken-seat list, and it appears twice in the created
reservation's seat list. -/
theorem claim_C10_duplicate_seats :
    reserve db0 "s1" "u1" [⟨1, 2⟩, ⟨1, 2⟩] 0 = .ok
      ({ screenings := [{ screening1 with
            takenSeats := [⟨1, 2, false⟩, ⟨1, 2, false⟩] }]
         reservations := [⟨0, "u1", "s1", [⟨1, 2, false⟩, ⟨1, 2, false⟩], 5, 0⟩]
         nextResId := 1 }, 0) := by
  rfl

/-- Claim C2 is violated by the handler, which runs its read phase and write
phase without a transaction: interleaving two reserve calls for the same free
seat (1,1) as read₁, read₂, write₁, write₂ — so both availability checks read
the store before either write commits, both passing with the same snapshot —
lets both calls succeed (each returns a reservation id) and leaves two active
reservations owning seat (1,1): a double-booking, where the claim demands
exactly one success. -/
theorem claim_C2_double_booking :
    reserveCheck db0 "s1" [⟨1, 1⟩] = some screening1 ∧
    (reserveWrite db0 "s1" "u1" [⟨1, 1⟩] screening1 0).2 = 0 ∧
    (reserveWrite (reserveWrite db0 "s1" "u1" [⟨1, 1⟩] screening1 0).1
      "s1" "u2" [⟨1, 1⟩] screening1 1).2 = 1 ∧
    ((reserveWrite (reserveWrite db0 "s1" "u1" [⟨1, 1⟩] screening1 0).1
      "s1" "u2" [⟨1, 1⟩] screening1 1).1.reservations.filter
        (fun r => r.screeningId == "s1" && seatTaken r.seats ⟨1, 1⟩)).length
      = 2 := by
  decide

end MRS
